import Mathlib

/-
Verification of the heappy allocation-interception engine: a shallow
embedding of the Block header layout (src/adapter.rs), the Collector
(src/collector.rs), the stack fingerprint (src/lib.rs, Frames) and the
allocator hooks (src/hook.rs), together with theorems about the
sampling profiler's observable behaviour.
-/

namespace Heappy

/-- Symbol addresses: the values of `backtrace::Frame::symbol_address`,
modelled as naturals. -/
abbrev Addr := Nat

/-- The observable content of a `Frames<N>` record (src/lib.rs 209-243):
the symbol addresses of its first `size` stored frames, in the order the
`FramesIterator` yields them.  The inline capacity `N` plays no role in
equality or hashing, so the model keeps only the iterated sequence. -/
structure Frames where
  syms : List Addr
deriving DecidableEq

/-- Shallow embedding of `impl PartialEq for Frames` (src/lib.rs 252-258):
zip the two frame iterators, compare `symbol_address()` pointwise, and
take the conjunction.  Note `zip` stops at the shorter sequence. -/
def framesEq (a b : Frames) : Bool :=
  ((a.syms.zip b.syms).map fun p => p.1 == p.2).all fun x => x

/-- The sequence of values fed to the hasher by `impl Hash for Frames`
(src/lib.rs 245-250): each iterated frame's symbol address, in order.
Hash agreement is modelled as equality of these streams (a hash collision
between distinct streams is outside the model). -/
def framesHashStream (a : Frames) : List Addr := a.syms

/-- Per-stack aggregated counters (src/collector.rs 6-12). -/
structure MemProfileRecord where
  alloc_bytes : Int
  free_bytes : Int
  alloc_objects : Int
  free_objects : Int
deriving DecidableEq

/-- The `Default` instance used by `Collector::record`'s
`or_insert_with(Default::default)`: all counters zero. -/
def MemProfileRecord.default : MemProfileRecord :=
  ⟨0, 0, 0, 0⟩

/-- `in_use_bytes` (src/collector.rs 15-17). -/
def MemProfileRecord.in_use_bytes (r : MemProfileRecord) : Int :=
  r.alloc_bytes - r.free_bytes

/-- The per-entry effect of `Collector::record` (src/collector.rs 37-49):
positive deltas bump the alloc counters, negative deltas bump the free
counters (`free_bytes += -bytes`), zero changes nothing. -/
def MemProfileRecord.apply (rec : MemProfileRecord) (bytes : Int) : MemProfileRecord :=
  if 0 < bytes then
    { rec with alloc_bytes := rec.alloc_bytes + bytes, alloc_objects := rec.alloc_objects + 1 }
  else if bytes < 0 then
    { rec with free_bytes := rec.free_bytes - bytes, free_objects := rec.free_objects + 1 }
  else rec

/-- The effect of `self.map.entry(key).or_insert_with(Default::default)`
followed by the counter update of `Collector::record`: the key's entry is
updated in place when present, and a `Default::default()` entry is
inserted first when absent.  The `HashMap` is modelled as an association
list with structural key equality (the hasher feeds every symbol address,
so distinct streams land in distinct buckets). -/
def updateAssoc {K : Type} [DecidableEq K]
    (m : List (K × MemProfileRecord)) (key : K) (bytes : Int) :
    List (K × MemProfileRecord) :=
  match m with
  | [] => [(key, MemProfileRecord.default.apply bytes)]
  | (k, r) :: rest =>
    if k = key then (k, r.apply bytes) :: rest
    else (k, r) :: updateAssoc rest key bytes

/-- Lookup in the association-list model of the Collector's map. -/
def lookupAssoc {K : Type} [DecidableEq K] :
    List (K × MemProfileRecord) → K → Option MemProfileRecord
  | [], _ => none
  | (k, r) :: rest, key => if k = key then some r else lookupAssoc rest key

/-- `Collector<K>` (src/collector.rs 24-26): a map from keys to
`MemProfileRecord`. -/
structure Collector (K : Type) where
  map : List (K × MemProfileRecord)
deriving DecidableEq

/-- `Collector::record` (src/collector.rs 35-50). -/
def Collector.record {K : Type} [DecidableEq K]
    (c : Collector K) (key : K) (bytes : Int) : Collector K :=
  ⟨updateAssoc c.map key bytes⟩

/-- `ProfilerState` (src/lib.rs 187-195), with the collector keyed by
stack fingerprints. -/
structure ProfilerState where
  collector : Collector Frames
  allocated_objects : Int
  allocated_bytes : Int
  next_sample : Int
  period : Nat
deriving DecidableEq

/-- `ProfilerState::new` (src/lib.rs 197-206): fresh collector, zero
counters, and the first sample threshold at `period`. -/
def ProfilerState.new (period : Nat) : ProfilerState :=
  ⟨⟨[]⟩, 0, 0, (period : Int), period⟩

/-- Modelled from the spec: the two-argument
`crate::profiler::Profiler::track_allocated` called by src/hook.rs is not
among the provided sources (only its callers in src/hook.rs and the
`Backtracer` implementation in src/adapter.rs are).  The re-entrancy
guard and the positive-delta branch follow the one-argument
`Profiler::track_allocated` of src/lib.rs 77-109 verbatim; the
negative-delta branch follows spec section 4.D step 4 (retrieve the stack
stored in the Block, never capture, record the negative delta) together
with `Block::backtrace(false)` of src/adapter.rs 82-100, which returns
the stored frames or an empty record without capturing.

Inputs: `entered` is the calling thread's `ENTERED` thread-local at entry,
`enabled` the global atomic, `blockFrames` the frames stored in the block
header in hand (none for a fresh block), `current` the stack a capture
would observe.  Outputs: the new profiler state, the thread-local's value
after the call returns, and the block header's frames after the call
(`backtrace(true)` stores the captured stack into the header). -/
def trackAllocated (s : ProfilerState) (entered enabled : Bool) (size : Int)
    (blockFrames : Option Frames) (current : Frames) :
    ProfilerState × Bool × Option Frames :=
  if entered then (s, true, blockFrames)
  else if enabled then
    if 0 < size then
      let s1 : ProfilerState :=
        { s with allocated_objects := s.allocated_objects + 1,
                 allocated_bytes := s.allocated_bytes + size }
      if s1.next_sample ≤ s1.allocated_bytes then
        let s2 : ProfilerState :=
          { s1 with next_sample := s1.allocated_bytes + (s1.period : Int) }
        let bt : Frames := blockFrames.getD current
        ({ s2 with collector := s2.collector.record bt size }, false, some bt)
      else (s1, false, blockFrames)
    else if size < 0 then
      let bt : Frames := blockFrames.getD ⟨[]⟩
      ({ s with collector := s.collector.record bt size }, false, blockFrames)
    else (s, false, blockFrames)
  else (s, false, blockFrames)

/-- The magic constant of src/adapter.rs 8 (feature `magic_number` on). -/
def MAGIC : Nat := 0xFEEDDEADBEEFF00D

/-- `BlockHeader` (src/adapter.rs 103-109): requested size, the lazily
captured stack, and the magic word. -/
structure BlockHeader where
  size : Nat
  frames : Option Frames
  magic : Nat
deriving DecidableEq

/-- `Block::header_size()` = `size_of::<BlockHeader>()` on x86-64 with the
`magic_number` feature: three 8-byte fields under `repr(C, align(16))`,
rounded up to 32. -/
def headerSize : Nat := 32

/-- The raw allocator's address space: block headers stored at base
addresses.  Address 0 is the null pointer. -/
abbrev Mem := Nat → Option BlockHeader

/-- Store a header at a base address (`std::ptr::write` in `Block::new`,
src/adapter.rs 15-24). -/
def Mem.write (m : Mem) (a : Nat) (h : BlockHeader) : Mem :=
  fun x => if x = a then some h else m x

/-- Return a base address to the allocator (`sys_free`). -/
def Mem.erase (m : Mem) (a : Nat) : Mem :=
  fun x => if x = a then none else m x

/-- Overwrite only the `frames` field of the header at `a`, as
`Block::backtrace` does when it stores a captured stack
(src/adapter.rs 90-95).  A write to an address holding no header (the
code would be writing through a dangling pointer) is dropped. -/
def Mem.updateFrames (m : Mem) (a : Nat) (fr : Option Frames) : Mem :=
  fun x => if x = a then (m a).map (fun h => { h with frames := fr }) else m x

/-- The state visible to the hooks: the raw allocator's memory, the
profiler state behind the lock, the `HEAP_PROFILER_ENABLED` atomic, and
the calling thread's `ENTERED` thread-local. -/
structure HookState where
  mem : Mem
  prof : ProfilerState
  enabled : Bool
  entered : Bool

/-- The raw-allocator calls a hook delegates to (the `sys_*` functions of
src/hook.rs). -/
inductive RawCall
  | malloc (size : Nat)
  | calloc (number size : Nat)
  | free (ptr : Nat)
  | realloc (ptr size : Nat)
  | posix_memalign (alignment size : Nat)
  | aligned_alloc (alignment size : Nat)
deriving DecidableEq

/-- The `malloc` hook (src/hook.rs 13-20): over-allocate by the header,
stamp a fresh header, `set_size`, notify the profiler with `+size`, and
return the user payload.  `rawBase` is the base `sys_malloc` returns and
`current` the stack a capture would observe.  Returns the new state, the
payload pointer, and the raw calls made. -/
def mallocHook (st : HookState) (rawBase : Nat) (current : Frames) (size : Nat) :
    HookState × Nat × List RawCall :=
  let m1 := st.mem.write rawBase ⟨0, none, MAGIC⟩
  let m2 := m1.write rawBase ⟨size, none, MAGIC⟩
  let r := trackAllocated st.prof st.entered st.enabled (size : Int) none current
  let m3 := m2.updateFrames rawBase r.2.2
  ({ st with mem := m3, prof := r.1 }, rawBase + headerSize,
   [RawCall.malloc (size + headerSize)])

/-- The `aligned_alloc` hook (src/hook.rs 103-110): as `malloc`, with the
alignment forwarded to the raw allocator. -/
def aligned_allocHook (st : HookState) (rawBase : Nat) (current : Frames)
    (alignment size : Nat) : HookState × Nat × List RawCall :=
  let m1 := st.mem.write rawBase ⟨0, none, MAGIC⟩
  let m2 := m1.write rawBase ⟨size, none, MAGIC⟩
  let r := trackAllocated st.prof st.entered st.enabled (size : Int) none current
  let m3 := m2.updateFrames rawBase r.2.2
  ({ st with mem := m3, prof := r.1 }, rawBase + headerSize,
   [RawCall.aligned_alloc alignment (size + headerSize)])

/-- The `posix_memalign` hook (src/hook.rs 83-101).  `res` is the return
code of `sys_posix_memalign` and `rawBase` the base it stores through the
out-pointer on success; a nonzero code is propagated untouched and the
out-pointer is not rewritten (modelled as `none`). -/
def posix_memalignHook (st : HookState) (rawBase : Nat) (res : Int)
    (current : Frames) (alignment size : Nat) :
    HookState × Int × Option Nat × List RawCall :=
  if res = 0 then
    let m1 := st.mem.write rawBase ⟨0, none, MAGIC⟩
    let m2 := m1.write rawBase ⟨size, none, MAGIC⟩
    let r := trackAllocated st.prof st.entered st.enabled (size : Int) none current
    let m3 := m2.updateFrames rawBase r.2.2
    ({ st with mem := m3, prof := r.1 }, 0, some (rawBase + headerSize),
     [RawCall.posix_memalign alignment (size + headerSize)])
  else (st, res, none, [RawCall.posix_memalign alignment (size + headerSize)])

/-- Rust's `usize` division: panics on a zero divisor, otherwise
truncating division.  `none` models the panic. -/
def rustDiv (a b : Nat) : Option Nat :=
  if b = 0 then none else some (a / b)

/-- The `usize` modulus: in release builds the hook's additions and
multiplications wrap at `2 ^ 64`. -/
def U64 : Nat := 2 ^ 64

/-- The extra element count computed by the `calloc` hook
(src/hook.rs 24-28): `extra = header_size / size`, incremented once when
`block_size = (number + extra) * size` compares below
`number * size + header_size`.  Both sides are computed on wrapping
`usize` (release-build semantics), so at inputs whose true products leave
the `usize` range the increment can be skipped even though the
mathematical inequality calls for it. -/
def callocExtra (number size : Nat) : Option Nat :=
  (rustDiv headerSize size).map fun extra =>
    if ((number + extra) % U64) * size % U64
        < (number * size % U64 + headerSize) % U64 then extra + 1
    else extra

/-- The value `callocExtra` takes on a nonzero element size (same
wrapping comparison). -/
def callocExtraVal (number size : Nat) : Nat :=
  let e := headerSize / size
  if ((number + e) % U64) * size % U64
      < (number * size % U64 + headerSize) % U64 then e + 1
  else e

/-- The `calloc` hook (src/hook.rs 22-35): compute the extra elements,
ask `sys_calloc(number + extra, size)`, stamp the header, `set_size` to
the effective size `number * size`, and notify the profiler.  The result
is `none` when the unguarded division panics (element size zero).  The
effective size and the raw-call argument `number + extra` are kept on
Nat; they coincide with the stored `usize` values whenever those
expressions stay below `U64`. -/
def callocHook (st : HookState) (rawBase : Nat) (current : Frames)
    (number size : Nat) : Option (HookState × Nat × List RawCall) :=
  (callocExtra number size).map fun extra =>
    let effective := number * size
    let m1 := st.mem.write rawBase ⟨0, none, MAGIC⟩
    let m2 := m1.write rawBase ⟨effective, none, MAGIC⟩
    let r := trackAllocated st.prof st.entered st.enabled (effective : Int) none current
    let m3 := m2.updateFrames rawBase r.2.2
    ({ st with mem := m3, prof := r.1 }, rawBase + headerSize,
     [RawCall.calloc (number + extra) size])

/-- The `free` hook (src/hook.rs 37-57) with the `measure_free` feature
compiled in: a null pointer is a no-op; a block failing `check()` is
passed through to `sys_free` untouched; otherwise the profiler is
notified with the negated stored size, the header is dropped, and the
base is returned to the allocator. -/
def freeHook (st : HookState) (body : Nat) : HookState × List RawCall :=
  if body = 0 then (st, [])
  else
    let base := body - headerSize
    match st.mem base with
    | none => (st, [RawCall.free body])
    | some h =>
      if h.magic = MAGIC then
        let r := trackAllocated st.prof st.entered st.enabled
          (-(h.size : Int)) h.frames ⟨[]⟩
        ({ st with mem := st.mem.erase base, prof := r.1 }, [RawCall.free base])
      else (st, [RawCall.free body])

/-- The `realloc` hook (src/hook.rs 59-76): null dispatches to `malloc`;
a block failing `check()` is passed through to `sys_realloc`; otherwise
`set_size(new_size)` in place, move the block (`sys_realloc` copies the
header to `newBase`), notify the profiler with the signed size delta
while the handle still points at the old base (as the code does, before
`rebase`), then rebase and return the new payload. -/
def reallocHook (st : HookState) (newBase : Nat) (current : Frames)
    (body size : Nat) : HookState × Nat × List RawCall :=
  if body = 0 then mallocHook st newBase current size
  else
    let base := body - headerSize
    match st.mem base with
    | none => (st, newBase, [RawCall.realloc body size])
    | some h =>
      if h.magic = MAGIC then
        let old_size := h.size
        let m1 := st.mem.write base { h with size := size }
        let m2 := (m1.erase base).write newBase { h with size := size }
        let r := trackAllocated st.prof st.entered st.enabled
          ((size : Int) - (old_size : Int)) ((m2 base).bind (fun hd => hd.frames)) current
        let m3 := m2.updateFrames base r.2.2
        ({ st with mem := m3, prof := r.1 }, newBase + headerSize,
         [RawCall.realloc base (size + headerSize)])
      else (st, newBase, [RawCall.realloc body size])

/-- `Block::adopt(body)` followed by `Block::size()`
(src/adapter.rs 26-29, 42-45): step back over the header and read the
size field. -/
def adoptSize (m : Mem) (body : Nat) : Option Nat :=
  (m (body - headerSize)).map BlockHeader.size

/-- Events driving the profiler state machine: `Profiler::start`,
`Profiler::stop`, and a hook notification carrying the signed delta, the
frames stored in the block in hand, and the capturable current stack. -/
inductive HEvent
  | start (period : Nat)
  | stop
  | track (delta : Int) (blockFrames : Option Frames) (current : Frames)

/-- One step of the profiler state machine, over (state, enabled). -/
def hstep : ProfilerState × Bool → HEvent → ProfilerState × Bool
  | (_, _), .start p => (ProfilerState.new p, true)
  | (s, _), .stop => (s, false)
  | (s, en), .track d fr cur => ((trackAllocated s false en d fr cur).1, en)

/-- Run a list of events from the lazily initialised global state
(`ProfilerState::new(1)`, profiling off: src/lib.rs 28-30). -/
def runEvents (evs : List HEvent) : ProfilerState × Bool :=
  evs.foldl hstep (ProfilerState.new 1, false)

/-- Sum of `alloc_bytes` over all Collector entries. -/
def allocSum (m : List (Frames × MemProfileRecord)) : Int :=
  (m.map fun p => p.2.alloc_bytes).sum

/-- Sum of `free_bytes` over all Collector entries. -/
def freeSum (m : List (Frames × MemProfileRecord)) : Int :=
  (m.map fun p => p.2.free_bytes).sum

/-- A hook state with empty memory and a fresh running profiler, used by
concrete witness instances. -/
def demoState : HookState :=
  ⟨fun _ => none, ProfilerState.new 1, true, false⟩

/-- A hook state holding one of our blocks at base 100 (stored size 7, no
stored stack). -/
def demoBlockState : HookState :=
  ⟨Mem.write (fun _ => none) 100 ⟨7, none, MAGIC⟩, ProfilerState.new 1, true, false⟩

/-- A hook state holding a checked block at base 100 of stored size 7
whose header stores the allocation-time stack [3]. -/
def demoFreeState : HookState :=
  ⟨Mem.write (fun _ => none) 100 ⟨7, some ⟨[3]⟩, MAGIC⟩, ProfilerState.new 1, true, false⟩

/-- A hook state holding a checked block of stored size 0 (as a freed
`malloc(0)` block would be) with a stored stack. -/
def demoZeroState : HookState :=
  ⟨Mem.write (fun _ => none) 100 ⟨0, some ⟨[5]⟩, MAGIC⟩, ProfilerState.new 1, true, false⟩

/-- A hook state holding a checked block of stored size 7, on a thread
that is already inside the profiler (`ENTERED` set). -/
def demoEnteredState : HookState :=
  ⟨Mem.write (fun _ => none) 100 ⟨7, some ⟨[5]⟩, MAGIC⟩, ProfilerState.new 1, true, true⟩

/-- The event trace: `start(2)`, then a 1-byte allocation that stays
below the sampling threshold (no stack gets stored in the block), then
the free of that block (no stored stack, so the free is recorded under
the empty stack). -/
def conservationTrace : List HEvent :=
  [HEvent.start 2, HEvent.track 1 none ⟨[7]⟩, HEvent.track (-1) none ⟨[]⟩]

theorem Mem.write_self (m : Mem) (a : Nat) (h : BlockHeader) : m.write a h a = some h := by
  simp [Mem.write]

theorem Mem.size_updateFrames (m : Mem) (a : Nat) (fr : Option Frames) (x : Nat) :
    (m.updateFrames a fr x).map BlockHeader.size = (m x).map BlockHeader.size := by
  by_cases hx : x = a
  · subst hx
    cases h : m x <;> simp [Mem.updateFrames, h]
  · simp [Mem.updateFrames, hx]

theorem apply_alloc_bytes (r : MemProfileRecord) (d : Int) :
    (r.apply d).alloc_bytes = r.alloc_bytes + (if 0 < d then d else 0) := by
  by_cases h1 : 0 < d
  · simp [MemProfileRecord.apply, h1]
  · by_cases h2 : d < 0 <;> simp [MemProfileRecord.apply, h1, h2]

theorem allocSum_updateAssoc (m : List (Frames × MemProfileRecord)) (k : Frames) (d : Int) :
    allocSum (updateAssoc m k d) = allocSum m + (if 0 < d then d else 0) := by
  induction m with
  | nil =>
    simp [updateAssoc, allocSum, apply_alloc_bytes, MemProfileRecord.default]
  | cons p rest ih =>
    obtain ⟨k0, r0⟩ := p
    by_cases hk : k0 = k
    · simp only [updateAssoc, hk, if_pos, allocSum, List.map_cons, List.sum_cons,
        apply_alloc_bytes]
      simp only [allocSum] at *
      ring
    · simp only [updateAssoc, hk, if_neg, allocSum, List.map_cons, List.sum_cons,
        not_false_iff]
      simp only [allocSum] at ih
      rw [ih]
      ring

theorem lookupAssoc_updateAssoc_self {K : Type} [DecidableEq K]
    (m : List (K × MemProfileRecord)) (k : K) (d : Int) :
    lookupAssoc (updateAssoc m k d) k =
      some (((lookupAssoc m k).getD MemProfileRecord.default).apply d) := by
  induction m with
  | nil => simp [updateAssoc, lookupAssoc]
  | cons p rest ih =>
    obtain ⟨k0, r0⟩ := p
    by_cases hk : k0 = k
    · simp [updateAssoc, hk, lookupAssoc]
    · simp [updateAssoc, hk, lookupAssoc, ih]

theorem lookupAssoc_updateAssoc_ne {K : Type} [DecidableEq K]
    (m : List (K × MemProfileRecord)) (k k' : K) (d : Int) (h : k' ≠ k) :
    lookupAssoc (updateAssoc m k d) k' = lookupAssoc m k' := by
  have h' : ¬k = k' := fun he => h he.symm
  induction m with
  | nil => simp [updateAssoc, lookupAssoc, h']
  | cons p rest ih =>
    obtain ⟨k0, r0⟩ := p
    by_cases hk : k0 = k
    · have hk0 : ¬k0 = k' := by rw [hk]; exact h'
      simp [updateAssoc, hk, lookupAssoc, hk0, h']
    · by_cases hk' : k0 = k'
      · simp [updateAssoc, hk, lookupAssoc, hk', h]
      · simp [updateAssoc, hk, lookupAssoc, hk', ih]

theorem updateAssoc_zero {K : Type} [DecidableEq K]
    (m : List (K × MemProfileRecord)) (k : K) :
    updateAssoc m k 0 =
      if (lookupAssoc m k).isSome then m
      else m ++ [(k, MemProfileRecord.default)] := by
  induction m with
  | nil => simp [updateAssoc, lookupAssoc, MemProfileRecord.apply]
  | cons p rest ih =>
    obtain ⟨k0, r0⟩ := p
    by_cases hk : k0 = k
    · simp [updateAssoc, hk, lookupAssoc, MemProfileRecord.apply]
    · by_cases hs : (lookupAssoc rest k).isSome <;>
        simp [updateAssoc, hk, lookupAssoc, ih, hs]

theorem trackAllocated_allocSum_le (s : ProfilerState) (en : Bool) (d : Int)
    (fr : Option Frames) (cur : Frames)
    (h : allocSum s.collector.map ≤ s.allocated_bytes) :
    allocSum (trackAllocated s false en d fr cur).1.collector.map ≤
      (trackAllocated s false en d fr cur).1.allocated_bytes := by
  cases en with
  | false => simpa [trackAllocated] using h
  | true =>
    by_cases hpos : 0 < d
    · by_cases hs : s.next_sample ≤ s.allocated_bytes + d
      · simp only [trackAllocated, if_true, hpos, if_pos, hs, Bool.false_eq_true,
          if_false, Collector.record]
        simp only [allocSum_updateAssoc, if_pos hpos]
        linarith
      · simp only [trackAllocated, if_true, hpos, if_pos, Bool.false_eq_true, if_false]
        rw [if_neg hs]
        simp only []
        linarith
    · by_cases hneg : d < 0
      · simp only [trackAllocated, Bool.false_eq_true, if_false, if_true,
          if_neg hpos, if_pos hneg, Collector.record]
        simp only [allocSum_updateAssoc, if_neg hpos]
        linarith
      · simpa [trackAllocated, if_neg hpos, if_neg hneg] using h

theorem hstep_allocSum_le (p : ProfilerState × Bool) (e : HEvent)
    (h : allocSum p.1.collector.map ≤ p.1.allocated_bytes) :
    allocSum (hstep p e).1.collector.map ≤ (hstep p e).1.allocated_bytes := by
  obtain ⟨s, en⟩ := p
  cases e with
  | start per => simp [hstep, ProfilerState.new, allocSum]
  | stop => simpa [hstep] using h
  | track d fr cur => exact trackAllocated_allocSum_le s en d fr cur h

theorem foldl_allocSum_le (evs : List HEvent) :
    ∀ p : ProfilerState × Bool, allocSum p.1.collector.map ≤ p.1.allocated_bytes →
      allocSum (evs.foldl hstep p).1.collector.map ≤
        (evs.foldl hstep p).1.allocated_bytes := by
  induction evs with
  | nil => intro p h; simpa using h
  | cons e rest ih => intro p h; exact ih (hstep p e) (hstep_allocSum_le p e h)

/-- Claim C2 (the code deviates): the empty stack record and a one-frame
record compare equal under the zip-based `PartialEq for Frames`, even
though their lengths differ and their hash streams disagree — the spec
requires records of different lengths never to compare equal. -/
theorem framesEq_true_on_prefix :
    framesEq ⟨[]⟩ ⟨[1]⟩ = true ∧
    (Frames.mk []).syms.length ≠ (Frames.mk [1]).syms.length ∧
    framesHashStream ⟨[]⟩ ≠ framesHashStream ⟨[1]⟩ := by
  decide

/-- Claim C5: a call of `track_allocated` on a thread whose `ENTERED`
thread-local is already set leaves the profiler state untouched, records
nothing, and leaves the guard set for the outer call; and on a normal
call the guard is clear again on every exit path. -/
theorem track_allocated_reentrancy_guard (s : ProfilerState) (enabled : Bool)
    (size : Int) (fr : Option Frames) (cur : Frames) :
    trackAllocated s true enabled size fr cur = (s, true, fr) ∧
    (trackAllocated s false enabled size fr cur).2.1 = false := by
  refine ⟨rfl, ?_⟩
  unfold trackAllocated
  cases enabled <;> simp <;> split_ifs <;> rfl

/-- Claim C8: `free(NULL)` performs no operation at all (no raw-allocator
call, no state change), and `realloc(NULL, n)` is the very same
computation as `malloc(n)` — header creation, profiler notification with
delta `+n`, returned payload and raw calls included. -/
theorem null_pointer_semantics (st : HookState) (newBase size : Nat) (cur : Frames) :
    freeHook st 0 = (st, []) ∧
    reallocHook st newBase cur 0 size = mallocHook st newBase cur size := by
  exact ⟨rfl, rfl⟩

/-- Claim C9 counterexample: recording a zero delta for an absent key
does not leave the Collector unchanged — `entry(key).or_insert_with`
inserts a default entry before the delta is inspected. -/
theorem record_zero_inserts_entry :
    Collector.record (⟨[]⟩ : Collector Frames) ⟨[1]⟩ 0 ≠ (⟨[]⟩ : Collector Frames) := by
  decide

/-- Claim C9 (amended): `record(k, 0)` modifies no counter of any entry;
the table is unchanged when `k` is present, and otherwise gains exactly
one fresh all-zero entry for `k`. -/
theorem record_zero_effect (c : Collector Frames) (k : Frames) :
    (c.record k 0).map =
      if (lookupAssoc c.map k).isSome then c.map
      else c.map ++ [(k, MemProfileRecord.default)] :=
  updateAssoc_zero c.map k

/-- Claim C10: the calloc hook's extra-block arithmetic divides
`header_size` by the caller-supplied element size with no guard, so the
hook completes exactly when `size ≥ 1`, and `calloc(count, 0)` reaches
the division-by-zero panic for every count. -/
theorem calloc_requires_positive_size (st : HookState) (rawBase : Nat)
    (cur : Frames) (number size : Nat) :
    callocHook st rawBase cur number 0 = none ∧
    ((callocHook st rawBase cur number size).isSome ↔ 1 ≤ size) := by
  constructor
  · simp [callocHook, callocExtra, rustDiv]
  · by_cases hz : size = 0 <;> simp [callocHook, callocExtra, rustDiv, hz] <;> omega

/-- Claim C4 counterexample: after `start(2)`, one unsampled 1-byte
allocation and the free of that block, the sum of the entries'
`alloc_bytes` is 0 while `allocated_bytes` is 1, and the sum of
`free_bytes` is 1 — both halves of the conservation claim fail. -/
theorem conservation_fails_at_trace :
    ¬(allocSum (runEvents conservationTrace).1.collector.map
        = (runEvents conservationTrace).1.allocated_bytes ∧
      freeSum (runEvents conservationTrace).1.collector.map
        ≤ allocSum (runEvents conservationTrace).1.collector.map) := by
  decide

/-- Claim C4 (amended): at every snapshot reachable by any event trace,
the sum of the Collector entries' `alloc_bytes` is at most the profiler's
`allocated_bytes` counter (equality holds only when every allocation was
sampled, and frees of unsampled allocations can push the free sum past
the alloc sum). -/
theorem runEvents_allocSum_le (evs : List HEvent) :
    allocSum (runEvents evs).1.collector.map ≤ (runEvents evs).1.allocated_bytes := by
  unfold runEvents
  exact foldl_allocSum_le evs (ProfilerState.new 1, false)
    (by simp [ProfilerState.new, allocSum])

/-- Claim C3: on an enabled, non-re-entered positive delta, the two
allocation counters are bumped first; a sample lands in the Collector
exactly when the bumped `allocated_bytes` reaches `next_sample`, in which
case `next_sample` becomes `allocated_bytes + period` and the sample is
recorded with the full byte delta under the attached stack; otherwise
nothing but the two counters changes. -/
theorem track_allocated_positive (s : ProfilerState) (size : Int)
    (fr : Option Frames) (cur : Frames) (hpos : 0 < size) :
    (trackAllocated s false true size fr cur).1.allocated_bytes
        = s.allocated_bytes + size ∧
    (trackAllocated s false true size fr cur).1.allocated_objects
        = s.allocated_objects + 1 ∧
    (trackAllocated s false true size fr cur).1.period = s.period ∧
    (if s.next_sample ≤ s.allocated_bytes + size then
      (trackAllocated s false true size fr cur).1.next_sample
          = s.allocated_bytes + size + (s.period : Int) ∧
      (trackAllocated s false true size fr cur).1.collector
          = s.collector.record (fr.getD cur) size
     else
      (trackAllocated s false true size fr cur).1.next_sample = s.next_sample ∧
      (trackAllocated s false true size fr cur).1.collector = s.collector) := by
  by_cases hs : s.next_sample ≤ s.allocated_bytes + size <;>
    simp [trackAllocated, hpos, hs]

/-- Claim C3 witness: a concrete positive delta through a fresh
period-1 profiler bumps `allocated_bytes` by the delta. -/
theorem track_allocated_positive_witness :
    0 < (5 : Int) ∧
    (trackAllocated (ProfilerState.new 1) false true 5 none ⟨[1]⟩).1.allocated_bytes
      = (ProfilerState.new 1).allocated_bytes + 5 :=
  ⟨by decide, (track_allocated_positive (ProfilerState.new 1) 5 none ⟨[1]⟩ (by decide)).1⟩

/-- Claim C7 counterexample: at count 2635249153387078798 and element
size 7 the wrapping comparison of the release build sees
`2 ^ 64 - 2 < 2` (false), leaves `extra = 4`, and the hook requests
`raw_calloc(count + 4, 7)` — yet
`(count + 4) * 7 = 2 ^ 64 - 2 < 2 ^ 64 + 2 = count * 7 + header_size`,
so the claimed covering inequality fails at this in-domain input. -/
theorem calloc_extra_wraps_short :
    callocExtraVal 2635249153387078798 7 = 4 ∧
    ¬(2635249153387078798 * 7 + headerSize
        ≤ (2635249153387078798 + callocExtraVal 2635249153387078798 7) * 7) ∧
    (callocHook demoState 500 ⟨[]⟩ 2635249153387078798 7).map (fun r => r.2.2)
      = some [RawCall.calloc (2635249153387078798 + 4) 7] := by
  decide

/-- Claim C7 (amended): for a nonzero element size, whenever
`number * size + header_size` stays inside the `usize` range (so the
release build's wrapping comparison agrees with the mathematical one and
a checked build does not panic), the calloc hook's extra element count
makes `(number + extra) * size` cover the user request plus the header,
and the hook asks the raw allocator for exactly
`raw_calloc(number + extra, size)`. -/
theorem calloc_extra_sufficient (st : HookState) (rawBase : Nat) (cur : Frames)
    (number size : Nat) (hsz : 1 ≤ size)
    (hno : number * size + headerSize < U64) :
    callocExtra number size = some (callocExtraVal number size) ∧
    number * size + headerSize ≤ (number + callocExtraVal number size) * size ∧
    (callocHook st rawBase cur number size).map (fun r => r.2.2)
      = some [RawCall.calloc (number + callocExtraVal number size) size] := by
  have hz : size ≠ 0 := by omega
  have h1 : callocExtra number size = some (callocExtraVal number size) := by
    simp [callocExtra, rustDiv, hz, callocExtraVal]
  have hes : (headerSize / size) * size ≤ headerSize :=
    Nat.div_mul_le_self headerSize size
  have hexp : (number + headerSize / size) * size
      = number * size + (headerSize / size) * size := by ring
  have hnum : number ≤ number * size := by
    calc number = number * 1 := (Nat.mul_one number).symm
    _ ≤ number * size := Nat.mul_le_mul_left number hsz
  have hdivle : headerSize / size ≤ (headerSize / size) * size := by
    calc headerSize / size = (headerSize / size) * 1 := (Nat.mul_one _).symm
    _ ≤ (headerSize / size) * size := Nat.mul_le_mul_left _ hsz
  have hlt1 : (number + headerSize / size) * size < U64 := by
    rw [hexp]
    linarith
  have hlt2 : number + headerSize / size < U64 := by linarith
  have hlt3 : number * size < U64 := by linarith
  have hval : callocExtraVal number size =
      if (number + headerSize / size) * size < number * size + headerSize
      then headerSize / size + 1 else headerSize / size := by
    simp only [callocExtraVal]
    rw [Nat.mod_eq_of_lt hlt2, Nat.mod_eq_of_lt hlt1, Nat.mod_eq_of_lt hlt3,
        Nat.mod_eq_of_lt hno]
  refine ⟨h1, ?_, ?_⟩
  · rw [hval]
    have hdm : (headerSize / size) * size + headerSize % size = headerSize := by
      rw [Nat.mul_comm]
      exact Nat.div_add_mod headerSize size
    have hml : headerSize % size < size := Nat.mod_lt _ (by omega)
    by_cases hcase : (number + headerSize / size) * size < number * size + headerSize
    · simp only [hcase, if_pos]
      have expand : (number + (headerSize / size + 1)) * size
          = number * size + (headerSize / size) * size + size := by ring
      rw [expand]
      linarith
    · simp only [hcase, if_neg, not_false_iff]
      exact Nat.le_of_not_lt hcase
  · simp [callocHook, h1]

/-- Claim C7 witness: with `number = 3`, `size = 5` (well inside the
`usize` range) the raw request is `raw_calloc(3 + extra, 5)` for the
computed extra. -/
theorem calloc_extra_sufficient_witness :
    1 ≤ 5 ∧ 3 * 5 + headerSize < U64 ∧
    (callocHook demoState 500 ⟨[]⟩ 3 5).map (fun r => r.2.2)
      = some [RawCall.calloc (3 + callocExtraVal 3 5) 5] :=
  ⟨by decide, by decide,
   (calloc_extra_sufficient demoState 500 ⟨[]⟩ 3 5 (by decide) (by decide)).2.2⟩

/-- Claim C6: immediately after each allocating entry point returns a
payload for requested user size `n`, adopting the payload (stepping back
over the header) and reading the size field yields exactly `n` — for
`calloc` the requested user size is `number * size` and the element size
must be nonzero (otherwise the hook panics before returning), for
`posix_memalign` the raw call must have succeeded, and for `realloc` the
incoming pointer must carry a checked header. -/
theorem size_round_trip (st : HookState)
    (rawBase newBase body n number size alignment : Nat)
    (cur : Frames) (hd : BlockHeader) :
    adoptSize (mallocHook st rawBase cur n).1.mem (mallocHook st rawBase cur n).2.1
      = some n ∧
    adoptSize (aligned_allocHook st rawBase cur alignment n).1.mem
        (aligned_allocHook st rawBase cur alignment n).2.1 = some n ∧
    ((posix_memalignHook st rawBase 0 cur alignment n).2.2.1
        = some (rawBase + headerSize) ∧
      adoptSize (posix_memalignHook st rawBase 0 cur alignment n).1.mem
        (rawBase + headerSize) = some n) ∧
    (1 ≤ size →
      (callocHook st rawBase cur number size).map
          (fun r => adoptSize r.1.mem r.2.1) = some (some (number * size))) ∧
    (headerSize ≤ body → st.mem (body - headerSize) = some hd → hd.magic = MAGIC →
      adoptSize (reallocHook st newBase cur body size).1.mem
        (reallocHook st newBase cur body size).2.1 = some size) := by
  refine ⟨?_, ?_, ⟨?_, ?_⟩, ?_, ?_⟩
  · simp [mallocHook, adoptSize, Nat.add_sub_cancel, Mem.size_updateFrames, Mem.write]
  · simp [aligned_allocHook, adoptSize, Nat.add_sub_cancel, Mem.size_updateFrames,
      Mem.write]
  · simp [posix_memalignHook]
  · simp [posix_memalignHook, adoptSize, Nat.add_sub_cancel, Mem.size_updateFrames,
      Mem.write]
  · intro hsz
    have hz : size ≠ 0 := by omega
    have h1 : callocExtra number size = some (callocExtraVal number size) := by
      simp [callocExtra, rustDiv, hz, callocExtraVal]
    simp [callocHook, h1, adoptSize, Nat.add_sub_cancel, Mem.size_updateFrames,
      Mem.write]
  · intro hb hm hmg
    have hb0 : ¬body = 0 := by
      simp only [headerSize] at hb
      omega
    simp [reallocHook, hb0, hm, hmg, adoptSize, Nat.add_sub_cancel,
      Mem.size_updateFrames, Mem.write]

/-- Claim C6 witness: concrete round trips for `malloc(10)`,
`calloc(4, 8)` and `realloc` of a live block to 25 bytes. -/
theorem size_round_trip_witness :
    adoptSize (mallocHook demoState 500 ⟨[]⟩ 10).1.mem
        (mallocHook demoState 500 ⟨[]⟩ 10).2.1 = some 10 ∧
    (1 ≤ 8 ∧ (callocHook demoState 500 ⟨[]⟩ 4 8).map
        (fun r => adoptSize r.1.mem r.2.1) = some (some (4 * 8))) ∧
    (headerSize ≤ 132 ∧
      adoptSize (reallocHook demoBlockState 300 ⟨[]⟩ 132 25).1.mem
        (reallocHook demoBlockState 300 ⟨[]⟩ 132 25).2.1 = some 25) :=
  ⟨(size_round_trip demoState 500 300 132 10 4 8 0 ⟨[]⟩ ⟨7, none, MAGIC⟩).1,
   ⟨by decide,
    (size_round_trip demoState 500 300 132 10 4 8 0 ⟨[]⟩ ⟨7, none, MAGIC⟩).2.2.2.1
      (by decide)⟩,
   ⟨by decide,
    (size_round_trip demoBlockState 300 300 132 10 4 25 0 ⟨[]⟩ ⟨7, none, MAGIC⟩).2.2.2.2
      (by decide) (by decide) (by decide)⟩⟩

/-- Claim C1 counterexample: two checked blocks whose frees record
nothing — a block of stored size 0 (the delta `-0` is ignored before the
Collector is reached, so no entry gains `free_objects`), and a block
freed on a thread already inside the profiler (the re-entrancy guard
drops the whole call). -/
theorem free_not_recorded_counterexample :
    (freeHook demoZeroState 132).1.prof.collector.map = [] ∧
    (freeHook demoEnteredState 132).1.prof = demoEnteredState.prof := by
  decide

/-- Claim C1 (amended): when free-measurement and the profiler are
enabled, a free-hook call arriving outside the profiler's own call graph
on a checked block with nonzero stored size and a stored allocation-time
stack records exactly one free sample against that stored stack: its
entry gains the block's size in `free_bytes` and one `free_object`, every
other entry is untouched, and the allocation counters do not move (the
stack is read from the block, never re-captured). -/
theorem free_records_allocation_site (st : HookState) (body : Nat)
    (hd : BlockHeader) (stack : Frames)
    (hent : st.entered = false) (hen : st.enabled = true)
    (hb : headerSize ≤ body)
    (hm : st.mem (body - headerSize) = some hd)
    (hmg : hd.magic = MAGIC)
    (hfr : hd.frames = some stack)
    (hsz : 1 ≤ hd.size) :
    lookupAssoc (freeHook st body).1.prof.collector.map stack
      = some (MemProfileRecord.mk
          ((lookupAssoc st.prof.collector.map stack).getD
              MemProfileRecord.default).alloc_bytes
          (((lookupAssoc st.prof.collector.map stack).getD
              MemProfileRecord.default).free_bytes + (hd.size : Int))
          ((lookupAssoc st.prof.collector.map stack).getD
              MemProfileRecord.default).alloc_objects
          (((lookupAssoc st.prof.collector.map stack).getD
              MemProfileRecord.default).free_objects + 1)) ∧
    (∀ k : Frames, k ≠ stack →
      lookupAssoc (freeHook st body).1.prof.collector.map k
        = lookupAssoc st.prof.collector.map k) ∧
    (freeHook st body).1.prof.allocated_bytes = st.prof.allocated_bytes ∧
    (freeHook st body).1.prof.allocated_objects = st.prof.allocated_objects := by
  have hb0 : ¬body = 0 := by
    simp only [headerSize] at hb
    omega
  have hszi : (1 : Int) ≤ (hd.size : Int) := by exact_mod_cast hsz
  have hneg : -(hd.size : Int) < 0 := by omega
  have hnpos : ¬(0 : Int) < -(hd.size : Int) := by omega
  simp only [freeHook, hb0, if_neg, not_false_iff, hm, hmg, if_pos, hfr,
    trackAllocated, hent, hen, if_true, Bool.false_eq_true, if_false,
    hnpos, hneg, Option.getD_some, Collector.record]
  refine ⟨?_, ?_, trivial, trivial⟩
  · rw [lookupAssoc_updateAssoc_self]
    simp [MemProfileRecord.apply, hnpos, hneg, Int.sub_neg]
  · intro k hk
    exact lookupAssoc_updateAssoc_ne _ _ _ _ hk

/-- Claim C1 witness: freeing the concrete 7-byte block whose header
stores the stack [3] puts `free_bytes = 7`, `free_objects = 1` on that
stack's entry. -/
theorem free_records_allocation_site_witness :
    lookupAssoc (freeHook demoFreeState 132).1.prof.collector.map ⟨[3]⟩
      = some (MemProfileRecord.mk 0 7 0 1) := by
  have h := (free_records_allocation_site demoFreeState 132 ⟨7, some ⟨[3]⟩, MAGIC⟩
    ⟨[3]⟩ rfl rfl (by decide) (by decide) (by decide) rfl (by decide)).1
  exact h.trans (by decide)

end Heappy
